import Mathlib

/-!
Verification of `sustainability_calcs/pmv.py` against its specification.

The repository consists of the single pure function `calculate_pmv`, which
evaluates the Predicted Mean Vote (PMV) thermal-comfort index (ISO 7730)
from environmental and personal parameters.  We embed the function over the
real numbers: Python floats become `ℝ`, and the operations that can raise in
Python — `math.sqrt` on a negative argument (ValueError) and the two
divisions (ZeroDivisionError: the saturation-pressure denominator `ta + 237.3`
on the omitted-`pa` path, and the `tcl` denominator) — are modelled as checked
operations returning `Option ℝ`, so a call that would raise is embedded as
`none`.
The optional arguments `tr` and `pa` (Python default `None`) are `Option ℝ`.
-/

namespace SustainabilityCalcs

/-- Checked square root: embeds Python `math.sqrt`, which raises `ValueError`
on a negative argument.  Returns `none` exactly when the radicand is negative. -/
noncomputable def sqrtD (x : ℝ) : Option ℝ :=
  if 0 ≤ x then some (Real.sqrt x) else none

/-- Checked division: embeds Python float division `x / y`, which raises
`ZeroDivisionError` when the denominator is zero. -/
noncomputable def divD (x y : ℝ) : Option ℝ :=
  if y = 0 then none else some (x / y)

/-- Convective heat-transfer coefficient, embedding the source line
`hc = 2.38 * abs(ta - tr) ** 0.25 if abs(ta - tr) > 0.1 else 12.1 * math.sqrt(wind_speed)`.
The `else` branch is the only place `math.sqrt` occurs, so only that branch can fail. -/
noncomputable def hc_of (ta trv wind_speed : ℝ) : Option ℝ :=
  if |ta - trv| > 0.1 then some (2.38 * |ta - trv| ^ (0.25 : ℝ))
  else Option.map (fun s => 12.1 * s) (sqrtD wind_speed)

/-- Clothing area factor, embedding the source line
`fcl = 1.05 + 0.1 * clo if clo > 0.5 else 1 + 0.2 * clo`. -/
noncomputable def fcl_of (clo : ℝ) : ℝ :=
  if clo > 0.5 then 1.05 + 0.1 * clo else 1 + 0.2 * clo

/-- Evaporative heat-loss term, embedding the source line
`hl2 = 0.42 * ((M - W) - 58.15)`.  No clamping is performed. -/
noncomputable def hl2_of (M W : ℝ) : ℝ :=
  0.42 * ((M - W) - 58.15)

/-- Embedding of `calculate_pmv(temperature_c, humidity, wind_speed, met, clo, tr, pa)`
from `src/sustainability_calcs/pmv.py`.  Defaults `met=1.2, clo=0.5` are passed
explicitly by callers; `tr=None` / `pa=None` are `none`.  The result is `none`
exactly when the Python call raises: a zero denominator `ta + 237.3` in the
`pws` line (evaluated only when `pa` is omitted), a negative radicand in
`math.sqrt`, or a zero denominator in the `tcl` line. -/
noncomputable def calculate_pmv (temperature_c humidity wind_speed met clo : ℝ)
    (tr pa : Option ℝ) : Option ℝ :=
  let M := met * 58.15
  let W : ℝ := 0
  let Icl := clo * 0.155
  let ta := temperature_c
  let trv := tr.getD ta
  let pavO : Option ℝ := pa.elim
    ((divD (17.27 * ta) (ta + 237.3)).map
      (fun q => humidity / 100.0 * (0.6108 * Real.exp q))) some
  pavO.bind (fun pav =>
    (hc_of ta trv wind_speed).bind (fun hc =>
      (divD (35.5 - ta) (3.5 * (6.45 * Icl + 0.1))).bind (fun dtcl =>
        let fcl := fcl_of clo
        let tcl := ta + dtcl
        let hl1 := 3.05 * 0.001 * (5733 - 6.99 * (M - W) - pav * 1000)
        let hl2 := hl2_of M W
        let hl3 := 1.7 * 0.00001 * M * (5867 - pav * 1000)
        let hl4 := 0.0014 * M * (34 - ta)
        let hl5 := fcl * hc * (tcl - ta)
        let hl6 := fcl * 3.96e-8 * ((tcl + 273) ^ 4 - (trv + 273) ^ 4)
        some ((0.303 * Real.exp (-0.036 * M) + 0.028) *
          ((M - W) - hl1 - hl2 - hl3 - hl4 - hl5 - hl6)))))

/-- Closed-form PMV composition written from spec section 4.1 steps 1-7
(with the spec's own constant spellings `0.00305`, `0.000017`), as a total
real-valued function of the already-resolved `trv` and `pav`.  This is the
spec-side definition against which `calculate_pmv` is compared. -/
noncomputable def pmv_spec (ta v met clo trv pav : ℝ) : ℝ :=
  let M := met * 58.15
  let W : ℝ := 0
  let Icl := clo * 0.155
  let hc := if |ta - trv| > 0.1 then 2.38 * |ta - trv| ^ (0.25 : ℝ)
            else 12.1 * Real.sqrt v
  let fcl := if clo > 0.5 then 1.05 + 0.1 * clo else 1 + 0.2 * clo
  let tcl := ta + (35.5 - ta) / (3.5 * (6.45 * Icl + 0.1))
  let hl1 := 0.00305 * (5733 - 6.99 * (M - W) - pav * 1000)
  let hl2 := 0.42 * ((M - W) - 58.15)
  let hl3 := 0.000017 * M * (5867 - pav * 1000)
  let hl4 := 0.0014 * M * (34 - ta)
  let hl5 := fcl * hc * (tcl - ta)
  let hl6 := fcl * 3.96e-8 * ((tcl + 273) ^ 4 - (trv + 273) ^ 4)
  (0.303 * Real.exp (-0.036 * M) + 0.028) *
    ((M - W) - hl1 - hl2 - hl3 - hl4 - hl5 - hl6)

/-- The documented default for `pa`: `(rh/100) * pws` with the Tetens-type
saturation vapor pressure `pws = 0.6108 * exp(17.27*ta/(ta+237.3))`. -/
noncomputable def pa_default (ta humidity : ℝ) : ℝ :=
  humidity / 100.0 * (0.6108 * Real.exp (17.27 * ta / (ta + 237.3)))

/-- When `pa` is omitted and the saturation-pressure denominator `ta + 237.3`
is zero, the call fails (the `pws` line in the source raises). -/
theorem calculate_pmv_pa_fail (ta rh v met clo : ℝ) (tr : Option ℝ)
    (hden : ta + 237.3 = 0) :
    calculate_pmv ta rh v met clo tr none = none := by
  simp only [calculate_pmv, divD, if_pos hden, Option.elim_none, Option.map_none',
    Option.none_bind]

/-- Master evaluation lemma: whenever no intermediate operation leaves its
real-valued domain (the saturation-pressure denominator is nonzero when `pa`
is omitted, the radicand is nonnegative when the forced-convection branch is
taken, and the `tcl` denominator is nonzero), `calculate_pmv` succeeds and
returns exactly the closed-form composition `pmv_spec`, with `tr` and `pa`
replaced by their documented defaults when omitted. -/
theorem calculate_pmv_eq (ta rh v met clo : ℝ) (tr pa : Option ℝ)
    (hpa : pa = none → ta + 237.3 ≠ 0)
    (hv : ¬ |ta - tr.getD ta| > 0.1 → 0 ≤ v)
    (hd : 3.5 * (6.45 * (clo * 0.155) + 0.1) ≠ 0) :
    calculate_pmv ta rh v met clo tr pa
      = some (pmv_spec ta v met clo (tr.getD ta) (pa.getD (pa_default ta rh))) := by
  have hpav : pa.elim ((divD (17.27 * ta) (ta + 237.3)).map
      (fun q => rh / 100.0 * (0.6108 * Real.exp q))) some
        = some (pa.getD (pa_default ta rh)) := by
    cases pa with
    | none =>
      simp only [Option.elim_none, divD, if_neg (hpa rfl), Option.map_some',
        Option.getD_none, pa_default]
    | some p =>
      simp only [Option.elim_some, Option.getD_some]
  simp only [calculate_pmv]
  rw [hpav]
  by_cases hbr : |ta - tr.getD ta| > 0.1
  · simp only [pmv_spec, hc_of, fcl_of, hl2_of, divD,
      if_pos hbr, if_neg hd, Option.some_bind]
    congr 1
    ring
  · have hv' : 0 ≤ v := hv hbr
    simp only [pmv_spec, hc_of, fcl_of, hl2_of, sqrtD, divD,
      if_neg hbr, if_pos hv', if_neg hd, Option.map_some', Option.some_bind]
    congr 1
    ring

/-- Totality on the physically meaningful domain: a nonnegative wind speed, a
nonnegative clothing insulation, and (when `pa` is omitted) a nonzero
`ta + 237.3` rule out all three failure modes. -/
theorem calculate_pmv_total (ta rh v met clo : ℝ) (tr pa : Option ℝ)
    (hpa : pa = none → ta + 237.3 ≠ 0) (hv : 0 ≤ v) (hclo : 0 ≤ clo) :
    ∃ r, calculate_pmv ta rh v met clo tr pa = some r := by
  have hd : 3.5 * (6.45 * (clo * 0.155) + 0.1) ≠ 0 := by nlinarith
  exact ⟨_, calculate_pmv_eq ta rh v met clo tr pa hpa (fun _ => hv) hd⟩

/-- C2: the convective heat-transfer coefficient used by `calculate_pmv` equals
`2.38 * |ta - tr| ^ 0.25` when `|ta - tr| > 0.1`, and `12.1 * sqrt v` whenever
`|ta - tr| ≤ 0.1` (and the radicand is in the real domain); in particular at
exactly `|ta - tr| = 0.1` the forced-convection form is used, so the threshold
is non-inclusive. -/
theorem hc_branches (ta trv v : ℝ) :
    (|ta - trv| > 0.1 → hc_of ta trv v = some (2.38 * |ta - trv| ^ (0.25 : ℝ)))
    ∧ (|ta - trv| ≤ 0.1 → 0 ≤ v → hc_of ta trv v = some (12.1 * Real.sqrt v)) := by
  constructor
  · intro h
    simp only [hc_of, if_pos h]
  · intro h hv
    simp only [hc_of, sqrtD, if_neg (not_lt.mpr h), if_pos hv, Option.map_some']

/-- Witness for C2 at the boundary `|ta - tr| = 0.1` and at `|ta - tr| = 2`. -/
theorem hc_branches_witness :
    hc_of 25 25.1 4 = some (12.1 * Real.sqrt 4)
    ∧ hc_of 25 27 4 = some (2.38 * |(25 : ℝ) - 27| ^ (0.25 : ℝ)) := by
  constructor
  · refine (hc_branches 25 25.1 4).2 ?_ (by norm_num)
    rw [show (25 : ℝ) - 25.1 = -(0.1) by norm_num, abs_neg,
      abs_of_nonneg (by norm_num : (0 : ℝ) ≤ 0.1)]
  · refine (hc_branches 25 27 4).1 ?_
    rw [show (25 : ℝ) - 27 = -2 by norm_num, abs_neg, abs_two]
    norm_num

/-- C3: the clothing area factor used by `calculate_pmv` equals
`1.05 + 0.1 * clo` when `clo > 0.5` and `1 + 0.2 * clo` when `clo ≤ 0.5`;
at exactly `clo = 0.5` the second formula applies (non-inclusive threshold). -/
theorem fcl_branches (clo : ℝ) :
    (clo > 0.5 → fcl_of clo = 1.05 + 0.1 * clo)
    ∧ (clo ≤ 0.5 → fcl_of clo = 1 + 0.2 * clo) := by
  constructor
  · intro h
    simp only [fcl_of, if_pos h]
  · intro h
    simp only [fcl_of, if_neg (not_lt.mpr h)]

/-- Witness for C3 at the boundary `clo = 0.5` and at `clo = 1`. -/
theorem fcl_branches_witness :
    fcl_of 0.5 = 1 + 0.2 * 0.5 ∧ fcl_of 1 = 1.05 + 0.1 * 1 :=
  ⟨(fcl_branches 0.5).2 (by norm_num), (fcl_branches 1).1 (by norm_num)⟩

/-- C6: omitting `tr` gives exactly the same result as passing `tr = ta`
explicitly, for every input. -/
theorem calculate_pmv_tr_default (ta rh v met clo : ℝ) (pa : Option ℝ) :
    calculate_pmv ta rh v met clo none pa
      = calculate_pmv ta rh v met clo (some ta) pa := rfl

/-- C7 counterexample: at `ta = -237.3` with `rh = 0`, the omitted-`pa` call
fails (the `pws` line divides by zero before `rh` is applied) while the call
with explicit `pa = 0` succeeds, so the claimed for-every-input equality is
false of the program. -/
theorem calculate_pmv_pa_default_cex :
    calculate_pmv (-237.3) 0 0.1 1.2 0.5 none none
      ≠ calculate_pmv (-237.3) 0 0.1 1.2 0.5 none (some 0) := by
  obtain ⟨r, hr⟩ := calculate_pmv_total (-237.3) 0 0.1 1.2 0.5 none (some 0)
    (fun h => Option.noConfusion h) (by norm_num) (by norm_num)
  rw [calculate_pmv_pa_fail (-237.3) 0 0.1 1.2 0.5 none (by norm_num), hr]
  exact fun h => Option.noConfusion h

/-- C7 amended: whenever the saturation-pressure denominator `ta + 237.3` is
nonzero, omitting `pa` gives exactly the same result as passing
`pa = (rh/100) * 0.6108 * exp(17.27*ta/(ta+237.3))` explicitly; in particular
with `rh = 0` the omitted-`pa` call matches the call with explicit `pa = 0`. -/
theorem calculate_pmv_pa_default_eq_amended :
    (∀ (ta rh v met clo : ℝ) (tr : Option ℝ), ta + 237.3 ≠ 0 →
      calculate_pmv ta rh v met clo tr none
        = calculate_pmv ta rh v met clo tr
            (some (rh / 100 * 0.6108 * Real.exp (17.27 * ta / (ta + 237.3)))))
    ∧ (∀ (ta v met clo : ℝ) (tr : Option ℝ), ta + 237.3 ≠ 0 →
      calculate_pmv ta 0 v met clo tr none
        = calculate_pmv ta 0 v met clo tr (some 0)) := by
  have hmain : ∀ (ta rh v met clo : ℝ) (tr : Option ℝ), ta + 237.3 ≠ 0 →
      calculate_pmv ta rh v met clo tr none
        = calculate_pmv ta rh v met clo tr
            (some (rh / 100 * 0.6108 * Real.exp (17.27 * ta / (ta + 237.3)))) := by
    intro ta rh v met clo tr hden
    simp only [calculate_pmv, Option.elim_none, Option.elim_some, divD,
      if_neg hden, Option.map_some']
    rw [show rh / 100 * 0.6108 * Real.exp (17.27 * ta / (ta + 237.3))
        = rh / 100.0 * (0.6108 * Real.exp (17.27 * ta / (ta + 237.3))) by ring]
  refine ⟨hmain, fun ta v met clo tr hden => ?_⟩
  have h0 : (0 : ℝ) / 100 * 0.6108 * Real.exp (17.27 * ta / (ta + 237.3)) = 0 := by ring
  rw [hmain ta 0 v met clo tr hden, h0]

/-- Witness for the amended C7 at the neutral reference point. -/
theorem calculate_pmv_pa_default_eq_amended_witness :
    calculate_pmv 25 50 0.1 1.2 0.5 none none
      = calculate_pmv 25 50 0.1 1.2 0.5 none
          (some (50 / 100 * 0.6108 * Real.exp (17.27 * 25 / (25 + 237.3)))) :=
  calculate_pmv_pa_default_eq_amended.1 25 50 0.1 1.2 0.5 none (by norm_num)

/-- C8: the evaporative heat-loss term used by `calculate_pmv` is exactly
`0.42 * ((M - W) - 58.15)` with no clamping, and it is strictly negative
whenever `met < 1` (so `M - W < 58.15`); the final PMV expression subtracts it
as-is (see `calculate_pmv_eq`). -/
theorem hl2_unclamped (M W met : ℝ) :
    hl2_of M W = 0.42 * ((M - W) - 58.15)
    ∧ (met < 1 → hl2_of (met * 58.15) 0 < 0) := by
  refine ⟨rfl, fun h => ?_⟩
  simp only [hl2_of]
  nlinarith

/-- Witness for C8 at `met = 0.8`. -/
theorem hl2_unclamped_witness :
    hl2_of 10 3 = 0.42 * ((10 - 3) - 58.15) ∧ hl2_of (0.8 * 58.15) 0 < 0 :=
  ⟨(hl2_unclamped 10 3 0.8).1, (hl2_unclamped 10 3 0.8).2 (by norm_num)⟩

/-- C10: when `pa` is explicitly provided, the result of `calculate_pmv` is
completely independent of the humidity argument. -/
theorem calculate_pmv_humidity_independent
    (ta rh1 rh2 v met clo : ℝ) (tr : Option ℝ) (pav : ℝ) :
    calculate_pmv ta rh1 v met clo tr (some pav)
      = calculate_pmv ta rh2 v met clo tr (some pav) := rfl

/-- C1: on every input where no intermediate operation leaves its real-valued
domain (a nonzero saturation-pressure denominator `ta + 237.3` when `pa` is
omitted, a nonnegative radicand when the forced-convection branch is taken,
and a nonzero `tcl` denominator), `calculate_pmv` returns exactly the
closed-form composition of spec section 4.1 steps 1-7, with `tr` and `pa`
replaced by their documented defaults when omitted. -/
theorem calculate_pmv_matches_spec (ta rh v met clo : ℝ) (tr pa : Option ℝ)
    (hpa : pa = none → ta + 237.3 ≠ 0)
    (hv : ¬ |ta - tr.getD ta| > 0.1 → 0 ≤ v)
    (hd : 3.5 * (6.45 * (clo * 0.155) + 0.1) ≠ 0) :
    calculate_pmv ta rh v met clo tr pa
      = some (pmv_spec ta v met clo (tr.getD ta) (pa.getD (pa_default ta rh))) :=
  calculate_pmv_eq ta rh v met clo tr pa hpa hv hd

/-- Witness for C1 at the neutral reference point with `tr` and `pa` omitted. -/
theorem calculate_pmv_matches_spec_witness :
    calculate_pmv 25 50 0.1 1.2 0.5 none none
      = some (pmv_spec 25 0.1 1.2 0.5 25 (pa_default 25 50)) :=
  calculate_pmv_matches_spec 25 50 0.1 1.2 0.5 none none
    (fun _ => by norm_num) (fun _ => by norm_num) (by norm_num)

/-- C5 counterexample: at `ta = -237.3` with `pa` omitted the call fails even
though neither of the claim's two listed failure modes holds — the wind speed
`0.1` is nonnegative (so no negative argument ever reaches the `^0.25` or the
`sqrt`) and the `tcl` denominator is nonzero at `clo = 0.5`.  The failing
operation is the saturation-pressure division `17.27*ta/(ta+237.3)`, a third
failure mode the claim omits. -/
theorem calculate_pmv_third_failure_mode :
    calculate_pmv (-237.3) 50 0.1 1.2 0.5 none none = none
    ∧ ¬ (0.1 : ℝ) < 0 ∧ ¬ 6.45 * ((0.5 : ℝ) * 0.155) + 0.1 = 0 :=
  ⟨calculate_pmv_pa_fail (-237.3) 50 0.1 1.2 0.5 none (by norm_num),
    by norm_num, by norm_num⟩

/-- C5 amended: a call fails (the Python code raises, embedded as `none`)
exactly when an intermediate operation leaves its real-valued domain: the
saturation-pressure denominator `ta + 237.3` is zero while `pa` is omitted, a
negative radicand reaches `math.sqrt` (possible only when `|ta - tr| ≤ 0.1`,
since the `^0.25` base is an absolute value and hence never negative), or the
`tcl` denominator is zero, i.e. `6.45*Icl + 0.1 = 0`.  These are the only
failure modes. -/
theorem calculate_pmv_error_conditions_amended (ta rh v met clo : ℝ) (tr pa : Option ℝ) :
    calculate_pmv ta rh v met clo tr pa = none
      ↔ (pa = none ∧ ta + 237.3 = 0)
        ∨ (|ta - tr.getD ta| ≤ 0.1 ∧ v < 0)
        ∨ 6.45 * (clo * 0.155) + 0.1 = 0 := by
  have hd35 : 3.5 * (6.45 * (clo * 0.155) + 0.1) = 0 ↔ 6.45 * (clo * 0.155) + 0.1 = 0 := by
    constructor
    · intro h
      rcases mul_eq_zero.mp h with h | h
      · norm_num at h
      · exact h
    · intro h
      rw [h]
      ring
  have tail : ∀ pav : ℝ, ∀ start : Option ℝ, start = some pav →
      (start.bind (fun pav =>
        (hc_of ta (tr.getD ta) v).bind (fun hc =>
          (divD (35.5 - ta) (3.5 * (6.45 * (clo * 0.155) + 0.1))).bind (fun dtcl =>
            let fcl := fcl_of clo
            let tcl := ta + dtcl
            let hl1 := 3.05 * 0.001 * (5733 - 6.99 * (met * 58.15 - 0) - pav * 1000)
            let hl2 := hl2_of (met * 58.15) 0
            let hl3 := 1.7 * 0.00001 * (met * 58.15) * (5867 - pav * 1000)
            let hl4 := 0.0014 * (met * 58.15) * (34 - ta)
            let hl5 := fcl * hc * (tcl - ta)
            let hl6 := fcl * 3.96e-8 * ((tcl + 273) ^ 4 - (tr.getD ta + 273) ^ 4)
            some ((0.303 * Real.exp (-0.036 * (met * 58.15)) + 0.028) *
              ((met * 58.15 - 0) - hl1 - hl2 - hl3 - hl4 - hl5 - hl6))))) = none
        ↔ (|ta - tr.getD ta| ≤ 0.1 ∧ v < 0) ∨ 6.45 * (clo * 0.155) + 0.1 = 0) := by
    intro pav start hstart
    rw [hstart]
    simp only [Option.some_bind, hc_of, sqrtD, divD]
    by_cases hbr : |ta - tr.getD ta| > 0.1
    · rw [if_pos hbr]
      by_cases hd : 3.5 * (6.45 * (clo * 0.155) + 0.1) = 0
      · rw [if_pos hd]
        simp [hd35.mp hd]
      · rw [if_neg hd]
        have hdz : ¬ 6.45 * (clo * 0.155) + 0.1 = 0 := fun h => hd (hd35.mpr h)
        simp [not_le.mpr hbr, hdz]
    · rw [if_neg hbr]
      by_cases hv : 0 ≤ v
      · rw [if_pos hv]
        by_cases hd : 3.5 * (6.45 * (clo * 0.155) + 0.1) = 0
        · rw [if_pos hd]
          simp [hd35.mp hd]
        · rw [if_neg hd]
          have hdz : ¬ 6.45 * (clo * 0.155) + 0.1 = 0 := fun h => hd (hd35.mpr h)
          simp [not_lt.mpr hv, hdz]
      · rw [if_neg hv]
        simp [not_lt.mp hbr, not_le.mp hv]
  cases pa with
  | some p =>
    have := tail p (some p) rfl
    simp only [calculate_pmv, Option.elim_some] at this ⊢
    rw [this]
    simp
  | none =>
    by_cases hden : ta + 237.3 = 0
    · rw [calculate_pmv_pa_fail ta rh v met clo tr hden]
      simp [hden]
    · have := tail (rh / 100.0 * (0.6108 * Real.exp (17.27 * ta / (ta + 237.3))))
        ((divD (17.27 * ta) (ta + 237.3)).map
          (fun q => rh / 100.0 * (0.6108 * Real.exp q)))
        (by simp only [divD, if_neg hden, Option.map_some'])
      simp only [calculate_pmv, Option.elim_none] at this ⊢
      rw [this]
      simp [hden]

/-- C4: for every physically valid input the function returns a value (no
failure), and the result is unclamped: an extreme input produces a PMV below
`-3`.  Purity and determinism are inherent to the functional embedding. -/
theorem calculate_pmv_safe :
    (∀ (ta rh v met clo : ℝ) (tr pa : Option ℝ),
        10 ≤ ta → ta ≤ 40 → 0 ≤ rh → rh ≤ 100 → 0 ≤ v → 0 < met → 0 ≤ clo →
        ∃ r, calculate_pmv ta rh v met clo tr pa = some r)
    ∧ (∃ r, calculate_pmv 25 1 10000 1.2 0.5 none (some 1) = some r ∧ r < -3) := by
  constructor
  · intro ta rh v met clo tr pa hta _ _ _ hv _ hclo
    exact calculate_pmv_total ta rh v met clo tr pa
      (fun _ => ne_of_gt (by linarith)) hv hclo
  · refine ⟨pmv_spec 25 10000 1.2 0.5 25 1, ?_, ?_⟩
    · exact calculate_pmv_eq 25 1 10000 1.2 0.5 none (some 1)
        (fun h => Option.noConfusion h) (fun _ => by norm_num) (by norm_num)
    · have hsq : Real.sqrt 10000 = 100 := by
        rw [show (10000 : ℝ) = 100 ^ 2 by norm_num,
          Real.sqrt_sq (by norm_num : (0 : ℝ) ≤ 100)]
      have hE : 0 < Real.exp (-0.036 * (1.2 * 58.15)) := Real.exp_pos _
      simp only [pmv_spec]
      rw [if_neg (by norm_num : ¬ |(25 : ℝ) - 25| > 0.1),
        if_neg (by norm_num : ¬ (0.5 : ℝ) > 0.5), hsq]
      nlinarith [hE]

/-- C9 counterexample: with `tr` explicitly set to `ta + 1` the natural-
convection branch is taken and the result does not depend on `v` at all, so
increasing `v` does not strictly decrease PMV. -/
theorem pmv_not_strictly_antitone_in_v :
    ¬ (∀ (v1 v2 : ℝ), 0 ≤ v1 → 0 ≤ v2 → v1 < v2 → ∀ (r1 r2 : ℝ),
        calculate_pmv 25 50 v1 1.2 0.5 (some 26) (some 1) = some r1 →
        calculate_pmv 25 50 v2 1.2 0.5 (some 26) (some 1) = some r2 → r2 < r1) := by
  intro h
  obtain ⟨r, hr⟩ := calculate_pmv_total 25 50 0.1 1.2 0.5 (some 26) (some 1)
    (fun h => Option.noConfusion h) (by norm_num) (by norm_num)
  have hb : |(25 : ℝ) - 26| > 0.1 := by
    rw [show (25 : ℝ) - 26 = -1 by norm_num, abs_neg, abs_one]
    norm_num
  have heq : calculate_pmv 25 50 0.2 1.2 0.5 (some 26) (some 1)
      = calculate_pmv 25 50 0.1 1.2 0.5 (some 26) (some 1) := by
    simp only [calculate_pmv, hc_of, Option.getD_some, if_pos hb]
  exact lt_irrefl r
    (h 0.1 0.2 (by norm_num) (by norm_num) (by norm_num) r r hr (heq.trans hr))

/-- C9 amended: when `|ta - tr| > 0.1` the result is independent of `v`; when
`|ta - tr| ≤ 0.1` (the forced-convection branch, which holds in particular
when `tr` is omitted), `ta < 35.5`, and `clo ≥ 0`, increasing the air velocity
strictly decreases the returned PMV. -/
theorem pmv_v_monotonicity_amended :
    (∀ (ta rh met clo v1 v2 : ℝ) (tr pa : Option ℝ), |ta - tr.getD ta| > 0.1 →
        calculate_pmv ta rh v1 met clo tr pa = calculate_pmv ta rh v2 met clo tr pa)
    ∧ (∀ (ta rh met clo v1 v2 : ℝ) (tr pa : Option ℝ) (r1 r2 : ℝ),
        |ta - tr.getD ta| ≤ 0.1 → ta < 35.5 → 0 ≤ clo → 0 ≤ v1 → v1 < v2 →
        calculate_pmv ta rh v1 met clo tr pa = some r1 →
        calculate_pmv ta rh v2 met clo tr pa = some r2 → r2 < r1) := by
  constructor
  · intro ta rh met clo v1 v2 tr pa h
    simp only [calculate_pmv, hc_of, if_pos h]
  · intro ta rh met clo v1 v2 tr pa r1 r2 hbr hta hclo hv1 h12 h1 h2
    have hbr' : ¬ |ta - tr.getD ta| > 0.1 := not_lt.mpr hbr
    have hdpos : 0 < 3.5 * (6.45 * (clo * 0.155) + 0.1) := by nlinarith
    have hd : 3.5 * (6.45 * (clo * 0.155) + 0.1) ≠ 0 := ne_of_gt hdpos
    have hv2 : 0 ≤ v2 := le_trans hv1 (le_of_lt h12)
    have hpa : pa = none → ta + 237.3 ≠ 0 := by
      intro hn hz
      rw [hn, calculate_pmv_pa_fail ta rh v1 met clo tr hz] at h1
      exact Option.noConfusion h1
    have e1 : pmv_spec ta v1 met clo (tr.getD ta) (pa.getD (pa_default ta rh)) = r1 :=
      Option.some.inj
        ((calculate_pmv_eq ta rh v1 met clo tr pa hpa (fun _ => hv1) hd).symm.trans h1)
    have e2 : pmv_spec ta v2 met clo (tr.getD ta) (pa.getD (pa_default ta rh)) = r2 :=
      Option.some.inj
        ((calculate_pmv_eq ta rh v2 met clo tr pa hpa (fun _ => hv2) hd).symm.trans h2)
    rw [← e1, ← e2]
    have hs : Real.sqrt v1 < Real.sqrt v2 := Real.sqrt_lt_sqrt hv1 h12
    have hcoef : 0 < 0.303 * Real.exp (-0.036 * (met * 58.15)) + 0.028 := by positivity
    have hfcl : 0 < (if clo > 0.5 then 1.05 + 0.1 * clo else (1 : ℝ) + 0.2 * clo) := by
      split_ifs with h <;> nlinarith
    have hdt : 0 < (35.5 - ta) / (3.5 * (6.45 * (clo * 0.155) + 0.1)) :=
      div_pos (by linarith) hdpos
    simp only [pmv_spec, if_neg hbr']
    nlinarith [mul_pos (mul_pos hcoef hfcl) (mul_pos hdt (sub_pos.mpr hs))]

/-- Witness for the amended C9, comparing `v = 0` and `v = 1` at the neutral
reference environment. -/
theorem pmv_v_monotonicity_amended_witness :
    pmv_spec 25 1 1.2 0.5 25 1 < pmv_spec 25 0 1.2 0.5 25 1 := by
  have hd : (3.5 : ℝ) * (6.45 * (0.5 * 0.155) + 0.1) ≠ 0 := by norm_num
  have h1 : calculate_pmv 25 50 0 1.2 0.5 none (some 1)
      = some (pmv_spec 25 0 1.2 0.5 25 1) :=
    calculate_pmv_eq 25 50 0 1.2 0.5 none (some 1) (fun h => Option.noConfusion h)
      (fun _ => le_refl 0) hd
  have h2 : calculate_pmv 25 50 1 1.2 0.5 none (some 1)
      = some (pmv_spec 25 1 1.2 0.5 25 1) :=
    calculate_pmv_eq 25 50 1 1.2 0.5 none (some 1) (fun h => Option.noConfusion h)
      (fun _ => by norm_num) hd
  exact pmv_v_monotonicity_amended.2 25 50 1.2 0.5 0 1 none (some 1) _ _
    (by norm_num [Option.getD_none]) (by norm_num) (by norm_num) (le_refl 0)
    (by norm_num) h1 h2

/-- Witness for C4 at the neutral reference point. -/
theorem calculate_pmv_safe_witness :
    ∃ r, calculate_pmv 25 50 0.1 1.2 0.5 none none = some r :=
  calculate_pmv_safe.1 25 50 0.1 1.2 0.5 none none (by norm_num) (by norm_num)
    (by norm_num) (by norm_num) (by norm_num) (by norm_num) (by norm_num)

end SustainabilityCalcs
